import Mathlib

/-!
Verification of the echo-base user-management backend.

The development shallowly embeds the Go sources: `domain/entity` (data
model), `utils/token.go` and `utils/password.go` (token and password
services), `domain/repository/user_repository.go` (credential store over an
explicit list-of-rows state), `domain/usecase/user_usecase.go` (account
service), the HTTP handlers and the admin middleware. Machine `int64`
arithmetic is modelled on `Int` with explicit wrapping where overflow can
occur; wall-clock readings (`time.Now()`) are threaded as explicit `now`
parameters in seconds; fallible operations return `Except String`.
External collaborators (the JWT library, bcrypt, the SQL engine, the
request validator and `strconv` parsing) are modelled from the spec, each
one marked `Modelled from the spec:` in its doc comment.
-/

namespace EchoBase

/-! ## Data model (domain/entity) -/

/-- Entity `User` from domain/entity: id, name, email, password hash, role
reference and store-assigned timestamps (modelled as integer seconds). -/
structure User where
  id : Int
  name : String
  email : String
  password : String
  roleId : Int
  createdAt : Int
  updatedAt : Int
  deriving DecidableEq, Repr

/-- Registration request payload (`UserCreatePayload`). -/
structure UserCreatePayload where
  name : String
  email : String
  password : String
  deriving DecidableEq, Repr

/-- Login request payload (`UserLoginPayload`). -/
structure UserLoginPayload where
  email : String
  password : String
  deriving DecidableEq, Repr

/-- Public projection `UserResponse`: the response shape of a user. It has
no password field. -/
structure UserResponse where
  id : Int
  name : String
  email : String
  roleId : Int
  createdAt : Int
  updatedAt : Int
  deriving DecidableEq, Repr

/-- Pagination metadata (`PaginationMeta`). -/
structure PaginationMeta where
  page : Int
  limit : Int
  total : Int
  totalPages : Int
  deriving DecidableEq, Repr

/-- Paginated listing response (`PaginatedUserResponse`). -/
structure PaginatedUserResponse where
  data : List UserResponse
  pagination : PaginationMeta
  deriving DecidableEq, Repr

/-- The credential store state: the `users` table rows plus the SERIAL id
sequence. Modelled from the spec: ids are store-assigned by the relational
engine; we carry the next sequence value explicitly. -/
structure Store where
  rows : List User
  nextId : Int
  deriving DecidableEq, Repr

/-! ## 64-bit integer arithmetic

Go `int64` arithmetic wraps on overflow (two's complement). `wrap64`
reduces a mathematical integer to the `int64` value the Go computation
yields. -/

/-- Wrap a mathematical integer into the signed 64-bit range, as Go int64
arithmetic does on overflow. -/
def wrap64 (x : Int) : Int := (x + 2 ^ 63) % 2 ^ 64 - 2 ^ 63

/-! ## Password service (utils/password.go) -/

/-- Modelled from the spec: bcrypt (`golang.org/x/crypto/bcrypt`) is an
external salted one-way hash. The model keeps the properties the code
relies on: the hash is prefixed output distinct from the plaintext and
`CheckPassword` verifies exactly the hashed plaintext. -/
def HashPassword (password : String) : String := "$2a$10$" ++ password

/-- `CheckPassword(hash, password)` from utils/password.go: true iff the
hash verifies against the password. -/
def CheckPassword (hash password : String) : Bool :=
  hash == HashPassword password

/-! ## Token service (utils/token.go) -/

/-- The hardcoded signing secret from utils/token.go. -/
def JWTSecret : String := "your-secret-key-change-in-production"

/-- `TokenExpiration = 24 * time.Hour`, in seconds. -/
def TokenExpiration : Int := 24 * 60 * 60

/-- JWT claim set from utils/token.go: identity claims plus the registered
`exp`, `iat`, `nbf` numeric dates (seconds). -/
structure JWTClaims where
  userID : Int
  email : String
  roleID : Int
  expiresAt : Int
  issuedAt : Int
  notBefore : Int
  deriving DecidableEq, Repr

/-- Modelled from the spec: the external JWT library's HMAC-SHA256
signature "binds the claim set so tampering invalidates the token"; the
MAC is modelled as the injective pairing of key and claim set. -/
def MacSign (key : String) (c : JWTClaims) : String × JWTClaims := (key, c)

/-- A signed compact token: the claim payload together with its signature. -/
structure SignedToken where
  claims : JWTClaims
  sig : String × JWTClaims
  deriving DecidableEq, Repr

/-- `GenerateToken` from utils/token.go: issues claims with
`exp = now + 24h`, `iat = nbf = now`, signed with `JWTSecret`. -/
def GenerateToken (userID : Int) (email : String) (roleID : Int) (now : Int) :
    SignedToken :=
  let claims : JWTClaims :=
    { userID := userID, email := email, roleID := roleID
      expiresAt := now + TokenExpiration, issuedAt := now, notBefore := now }
  { claims := claims, sig := MacSign JWTSecret claims }

/-- `ValidateToken` from utils/token.go: the library verifies the signature
and the registered claims; `exp` must be strictly in the future and `nbf`
must not be in the future (jwt/v5 default validation). -/
def ValidateToken (tok : SignedToken) (now : Int) : Except String JWTClaims :=
  if tok.sig ≠ MacSign JWTSecret tok.claims then
    .error "error parsing token: signature is invalid"
  else if tok.claims.expiresAt ≤ now then
    .error "error parsing token: token is expired"
  else if now < tok.claims.notBefore then
    .error "error parsing token: token is not valid yet"
  else
    .ok tok.claims

/-! ## Response envelope (utils, APIResponse) -/

/-- Payload attached to a response envelope (Go `interface\x7b\x7d` data
field), one constructor per payload shape the handlers produce. -/
inductive ResponseData where
  | user (u : UserResponse)
  | users (l : List UserResponse)
  | login (token : SignedToken) (user : UserResponse)
  | page (p : PaginatedUserResponse)
  deriving DecidableEq, Repr

/-- The standard envelope `APIResponse`. -/
structure APIResponse where
  success : Bool
  code : Int
  message : String
  data : Option ResponseData
  timestamp : Int
  deriving DecidableEq, Repr

/-- `SuccessResponse` from utils: success envelope, code 200. -/
def SuccessResponse (message : String) (data : Option ResponseData)
    (now : Int) : APIResponse :=
  { success := true, code := 200, message := message, data := data
    timestamp := now }

/-- `ErrorResponse` from utils: error envelope, code 400, no data. -/
def ErrorResponse (message : String) (now : Int) : APIResponse :=
  { success := false, code := 400, message := message, data := none
    timestamp := now }

/-! ## Credential store (domain/repository/user_repository.go)

The PostgreSQL store is embedded as operations over an explicit `Store`
state. SQL semantics (WHERE/ORDER BY/LIMIT/OFFSET/COUNT/ILIKE) are those of
the external engine and are modelled from the spec where noted. -/

/-- Ordering relation of `ORDER BY created_at DESC`: a row comes before
another when its creation time is at least as recent. -/
def newerFirst (a b : User) : Prop := b.createdAt ≤ a.createdAt

instance : DecidableRel newerFirst := fun _ _ => Int.decLe _ _

instance : IsTotal User newerFirst :=
  ⟨fun a b => Int.le_total b.createdAt a.createdAt⟩

instance : IsTrans User newerFirst :=
  ⟨fun _ _ _ hab hbc => Int.le_trans hbc hab⟩

/-- Modelled from the spec: `ILIKE '%s%'` filtering, "filters rows where
name or email case-insensitively contains the substring". -/
def containsCI (haystack pattern : String) : Bool :=
  decide (pattern.toLower.toList <:+: haystack.toLower.toList)

/-- Row predicate of the pagination queries: every row matches when the
search is empty (no WHERE clause), otherwise name or email must
case-insensitively contain the search string. -/
def matchesSearch (search : String) (u : User) : Bool :=
  if search == "" then true
  else containsCI u.name search || containsCI u.email search

/-- Clamping of `page` in `GetAllPagination`: `if page < 1 then page = 1`. -/
def pageClamp (page : Int) : Int := if page < 1 then 1 else page

/-- Clamping of `limit` in `GetAllPagination`:
`if limit < 1 or limit > 100 then limit = 10`. -/
def limitClamp (limit : Int) : Int :=
  if limit < 1 ∨ limit > 100 then 10 else limit

namespace Repo

/-- `userRepository.GetByID`: the row with the given id, or `none`
(`sql.ErrNoRows` is mapped to a nil user, not an error). -/
def GetByID (id : Int) (s : Store) : Option User :=
  s.rows.find? (fun r => r.id == id)

/-- `userRepository.GetByEmail`: the row with the given email, or `none`. -/
def GetByEmail (email : String) (s : Store) : Option User :=
  s.rows.find? (fun r => r.email == email)

/-- `userRepository.Create`: sets both timestamps to `now`, defaults the
role to id 1 when unset (zero), and inserts the row with the
store-assigned id. -/
def Create (u : User) (s : Store) (now : Int) : User × Store :=
  let roleId := if u.roleId == 0 then 1 else u.roleId
  let created : User :=
    { u with id := s.nextId, roleId := roleId, createdAt := now
             updatedAt := now }
  (created, { rows := s.rows ++ [created], nextId := s.nextId + 1 })

/-- `userRepository.Update`: `UPDATE users SET name, role_id, updated_at
WHERE id ... RETURNING`; `sql.ErrNoRows` becomes the "user not found"
error. -/
def Update (u : User) (s : Store) (now : Int) : Except String (User × Store) :=
  match s.rows.find? (fun r => r.id == u.id) with
  | none => .error "user not found"
  | some r0 =>
    .ok ({ r0 with name := u.name, roleId := u.roleId, updatedAt := now },
      { rows := s.rows.map (fun r =>
          if r.id == u.id then
            { r with name := u.name, roleId := u.roleId, updatedAt := now }
          else r)
        nextId := s.nextId })

/-- `userRepository.Delete`: `DELETE FROM users WHERE id`; zero rows
affected becomes the "user not found" error. -/
def Delete (id : Int) (s : Store) : Except String Store :=
  let remaining := s.rows.filter (fun r => !(r.id == id))
  if remaining.length == s.rows.length then .error "user not found"
  else .ok { rows := remaining, nextId := s.nextId }

/-- `userRepository.GetAll`: all rows ordered by creation time descending.
Modelled from the spec: the engine's `ORDER BY created_at DESC` is a sort
by the `newerFirst` relation. -/
def GetAll (s : Store) : List User :=
  List.insertionSort newerFirst s.rows

/-- `userRepository.GetAllPagination`: clamps page and limit, computes
`offset := (page-1)*limit` in wrapping int64 arithmetic, counts all
matching rows, and returns the `LIMIT limit OFFSET offset` window of the
matching rows ordered by creation time descending. Modelled from the spec:
the engine's filtering, ordering and windowing; a negative (wrapped) OFFSET
is rejected by the engine as an error. -/
def GetAllPagination (page limit : Int) (search : String) (s : Store) :
    Except String (List User × Int) :=
  let page := pageClamp page
  let limit := limitClamp limit
  let offset := wrap64 ((page - 1) * limit)
  let matching := s.rows.filter (matchesSearch search)
  let total : Int := matching.length
  if offset < 0 then .error "OFFSET must not be negative"
  else
    .ok (((List.insertionSort newerFirst matching).drop offset.toNat).take
      limit.toNat, total)

end Repo

/-! ## Account service (domain/usecase/user_usecase.go) -/

/-- Projection of a stored user to the public `UserResponse` shape, as
built by Login, GetByID, GetAll, GetAllPagination and Update. -/
def toUserResponse (u : User) : UserResponse :=
  { id := u.id, name := u.name, email := u.email, roleId := u.roleId
    createdAt := u.createdAt, updatedAt := u.updatedAt }

namespace Usecase

/-- `UserUsecaseImpl.Register`: rejects an already-registered email,
otherwise hashes the password and creates the row (role left unset, so the
store defaults it). The Go response literal omits `RoleID`, leaving the
zero value. -/
def Register (p : UserCreatePayload) (s : Store) (now : Int) :
    Except String (UserResponse × Store) :=
  match Repo.GetByEmail p.email s with
  | some _ => .error "email is already registered"
  | none =>
    let user : User :=
      { id := 0, name := p.name, email := p.email
        password := HashPassword p.password, roleId := 0, createdAt := 0
        updatedAt := 0 }
    let (created, s2) := Repo.Create user s now
    .ok ({ id := created.id, name := created.name, email := created.email
           roleId := 0, createdAt := created.createdAt
           updatedAt := created.updatedAt }, s2)

/-- The bundle returned by a successful login: token plus public user
projection (`LoginResponse`). -/
structure LoginResult where
  token : SignedToken
  user : UserResponse
  deriving DecidableEq, Repr

/-- `UserUsecaseImpl.Login`: unknown email and wrong password both fail
with the same message; success issues a token from the stored user's id,
email and role id. -/
def Login (p : UserLoginPayload) (s : Store) (now : Int) :
    Except String LoginResult :=
  match Repo.GetByEmail p.email s with
  | none => .error "invalid email or password"
  | some user =>
    if !CheckPassword user.password p.password then
      .error "invalid email or password"
    else
      .ok { token := GenerateToken user.id user.email user.roleId now
            user := toUserResponse user }

/-- `UserUsecaseImpl.GetByID`. -/
def GetByID (id : Int) (s : Store) : Except String UserResponse :=
  match Repo.GetByID id s with
  | none => .error "user not found"
  | some u => .ok (toUserResponse u)

/-- `UserUsecaseImpl.GetAll`. -/
def GetAll (s : Store) : List UserResponse :=
  (Repo.GetAll s).map toUserResponse

/-- `UserUsecaseImpl.Update`: requires the row to exist, then updates only
the name (the role is written back unchanged) through the store. -/
def Update (id : Int) (name : String) (s : Store) (now : Int) :
    Except String (UserResponse × Store) :=
  match Repo.GetByID id s with
  | none => .error "user not found"
  | some user =>
    match Repo.Update { user with name := name } s now with
    | .error e => .error ("error updating user: " ++ e)
    | .ok (updated, s2) => .ok (toUserResponse updated, s2)

/-- `UserUsecaseImpl.Delete`: requires existence, then delegates to the
store. -/
def Delete (id : Int) (s : Store) : Except String Store :=
  match Repo.GetByID id s with
  | none => .error "user not found"
  | some _ => Repo.Delete id s

/-- `UserUsecaseImpl.GetAllPagination`: fetches the page from the store and
computes `totalPages := (total + limit - 1) / limit` with the
caller-supplied (unclamped) limit in int64 arithmetic; the metadata echoes
the caller-supplied page and limit. A zero limit makes the Go division
panic, modelled as the error result. -/
def GetAllPagination (page limit : Int) (search : String) (s : Store) :
    Except String PaginatedUserResponse :=
  match Repo.GetAllPagination page limit search s with
  | .error e => .error ("error getting users: " ++ e)
  | .ok (users, total) =>
    if limit == 0 then .error "integer divide by zero"
    else
      let totalPages := wrap64 (Int.tdiv (wrap64 (total + limit - 1)) limit)
      .ok { data := users.map toUserResponse
            pagination :=
              { page := page, limit := limit, total := total
                totalPages := totalPages } }

end Usecase

/-! ## HTTP handlers (http/handler)

Each handler is a function from its request-derived inputs and the store to
an HTTP status, a response envelope, and the resulting store. Request
binding and `strconv.ParseInt` are abstracted to their results: an
`Option` input is `none` when binding or parsing failed. Modelled from the
spec: the external `validator` rules (`required,min=3` names,
`required,email` emails, `required,min=6` passwords), with the email rule
abstracted to containing an `@`. -/

/-- Result of running a handler: HTTP status, envelope, updated store. -/
structure HandlerResult where
  status : Int
  body : APIResponse
  store : Store
  deriving DecidableEq, Repr

/-- Validator outcome for the registration payload. -/
def validCreatePayload (p : UserCreatePayload) : Bool :=
  decide (3 ≤ p.name.length) && p.email.toList.contains '@' &&
    decide (6 ≤ p.password.length)

/-- Validator outcome for the login payload. -/
def validLoginPayload (p : UserLoginPayload) : Bool :=
  p.email.toList.contains '@' && decide (6 ≤ p.password.length)

namespace Handler

/-- `UserHandler.Register`: 400 on bind/validation failure, 500 on usecase
error, 201 with the created projection on success. -/
def Register (bind : Option UserCreatePayload) (s : Store) (now : Int) :
    HandlerResult :=
  match bind with
  | none => ⟨400, ErrorResponse "invalid request body" now, s⟩
  | some p =>
    if !validCreatePayload p then
      ⟨400, ErrorResponse "validation failed" now, s⟩
    else
      match Usecase.Register p s now with
      | .error e => ⟨500, ErrorResponse e now, s⟩
      | .ok (result, s2) =>
        ⟨201, SuccessResponse "user registered successfully"
          (some (.user result)) now, s2⟩

/-- `UserHandler.Login`: 400 on bind/validation failure, 401 on usecase
error, 200 with token and user on success. -/
def Login (bind : Option UserLoginPayload) (s : Store) (now : Int) :
    HandlerResult :=
  match bind with
  | none => ⟨400, ErrorResponse "invalid request body" now, s⟩
  | some p =>
    if !validLoginPayload p then
      ⟨400, ErrorResponse "validation failed" now, s⟩
    else
      match Usecase.Login p s now with
      | .error e => ⟨401, ErrorResponse e now, s⟩
      | .ok r =>
        ⟨200, SuccessResponse "login successful"
          (some (.login r.token r.user)) now, s⟩

/-- `UserHandler.GetByID`: 400 on an unparseable path id, 404 on usecase
error, 200 on success. -/
def GetByID (idParam : Option Int) (s : Store) (now : Int) : HandlerResult :=
  match idParam with
  | none => ⟨400, ErrorResponse "invalid user ID" now, s⟩
  | some id =>
    match Usecase.GetByID id s with
    | .error e => ⟨404, ErrorResponse e now, s⟩
    | .ok r =>
      ⟨200, SuccessResponse "user retrieved successfully"
        (some (.user r)) now, s⟩

/-- `UserHandler.GetAll`: 200 with all users (the store read cannot fail in
the model, so the 500 branch is unreachable and omitted). -/
def GetAll (s : Store) (now : Int) : HandlerResult :=
  ⟨200, SuccessResponse "users retrieved successfully"
    (some (.users (Usecase.GetAll s))) now, s⟩

/-- Effective page in `UserHandler.GetAllPagination`: default 1, replaced
by the parsed query value only when it parsed and is positive. -/
def effectivePage (pageParam : Option Int) : Int :=
  match pageParam with
  | some v => if 0 < v then v else 1
  | none => 1

/-- Effective limit in `UserHandler.GetAllPagination`: default 10, replaced
by the parsed query value only when it parsed and lies in (0, 100]. -/
def effectiveLimit (limitParam : Option Int) : Int :=
  match limitParam with
  | some v => if 0 < v ∧ v ≤ 100 then v else 10
  | none => 10

/-- `UserHandler.GetAllPagination`: parses page/limit/search query
parameters with defaults, then 500 on usecase error and 200 on success. -/
def GetAllPagination (pageParam limitParam : Option Int) (search : String)
    (s : Store) (now : Int) : HandlerResult :=
  match Usecase.GetAllPagination (effectivePage pageParam)
      (effectiveLimit limitParam) search s with
  | .error e => ⟨500, ErrorResponse e now, s⟩
  | .ok r =>
    ⟨200, SuccessResponse "users retrieved successfully"
      (some (.page r)) now, s⟩

/-- `UserHandler.Update`: 401 without identity context, 400 on an
unparseable path id, 403 when the caller's id differs from the target id,
400 on bind/validation failure, then 500/200 from the usecase. -/
def Update (ctxUserId : Option Int) (idParam : Option Int)
    (bind : Option String) (s : Store) (now : Int) : HandlerResult :=
  match ctxUserId with
  | none => ⟨401, ErrorResponse "unauthorized" now, s⟩
  | some uid =>
    match idParam with
    | none => ⟨400, ErrorResponse "invalid user ID" now, s⟩
    | some id =>
      if uid ≠ id then
        ⟨403, ErrorResponse "you can only update your own profile" now, s⟩
      else
        match bind with
        | none => ⟨400, ErrorResponse "invalid request body" now, s⟩
        | some name =>
          if !decide (3 ≤ name.length) then
            ⟨400, ErrorResponse "validation failed" now, s⟩
          else
            match Usecase.Update id name s now with
            | .error e => ⟨500, ErrorResponse e now, s⟩
            | .ok (r, s2) =>
              ⟨200, SuccessResponse "user updated successfully"
                (some (.user r)) now, s2⟩

/-- `UserHandler.Delete`: 401 without identity context, 400 on an
unparseable path id, 403 when the caller's id differs from the target id,
then 500/200 from the usecase. -/
def Delete (ctxUserId : Option Int) (idParam : Option Int) (s : Store)
    (now : Int) : HandlerResult :=
  match ctxUserId with
  | none => ⟨401, ErrorResponse "unauthorized" now, s⟩
  | some uid =>
    match idParam with
    | none => ⟨400, ErrorResponse "invalid user ID" now, s⟩
    | some id =>
      if uid ≠ id then
        ⟨403, ErrorResponse "you can only delete your own account" now, s⟩
      else
        match Usecase.Delete id s with
        | .error e => ⟨500, ErrorResponse e now, s⟩
        | .ok s2 =>
          ⟨200, SuccessResponse "user deleted successfully" none now, s2⟩

/-- `UserHandler.GetProfile`: 401 without identity context, then 404/200
from the usecase. -/
def GetProfile (ctxUserId : Option Int) (s : Store) (now : Int) :
    HandlerResult :=
  match ctxUserId with
  | none => ⟨401, ErrorResponse "unauthorized" now, s⟩
  | some uid =>
    match Usecase.GetByID uid s with
    | .error e => ⟨404, ErrorResponse e now, s⟩
    | .ok r =>
      ⟨200, SuccessResponse "profile retrieved successfully"
        (some (.user r)) now, s⟩

end Handler

/-! ## Access control gate (http/middleware/admin.go) -/

/-- Outcome of a middleware: reject the request with a status and message,
or pass it through to the next handler. -/
inductive MwOutcome where
  | reject (status : Int) (message : String)
  | pass
  deriving DecidableEq, Repr

/-- `AdminRoleMiddleware`: requires a non-empty Authorization header value
list, requires the identity context populated by the bearer middleware
(401 otherwise), and rejects with 403 unless the context role id is
exactly the numeric admin id 2. -/
def AdminRoleMiddleware (authValues : List String)
    (ctxUserId ctxRoleId : Option Int) : MwOutcome :=
  let authHeader := authValues.headD ""
  if authHeader == "" then .reject 401 "missing authorization header"
  else if authValues.length == 0 then
    .reject 401 "missing authorization header"
  else
    match ctxUserId, ctxRoleId with
    | some _, some roleId =>
      if roleId ≠ 2 then
        .reject 403 "you don\x27t have permission to access this resource"
      else .pass
    | _, _ => .reject 401 "unauthorized"

/-! ## Sample fixtures used by witnesses and counterexamples -/

/-- A sample stored user whose password hash verifies "secret1". -/
def demoUser : User :=
  { id := 1, name := "alice", email := "alice@example.com"
    password := HashPassword "secret1", roleId := 1, createdAt := 100
    updatedAt := 100 }

/-- A sample one-row store. -/
def demoStore : Store := { rows := [demoUser], nextId := 2 }

/-! ## Helper lemmas -/

/-- Validating a freshly issued token reduces to the expiry and
not-before checks on the embedded claim set. -/
lemma validate_generate_eq (userID roleID issuedAt checkAt : Int)
    (email : String) :
    ValidateToken (GenerateToken userID email roleID issuedAt) checkAt =
      if issuedAt + TokenExpiration ≤ checkAt then
        .error "error parsing token: token is expired"
      else if checkAt < issuedAt then
        .error "error parsing token: token is not valid yet"
      else
        .ok { userID := userID, email := email, roleID := roleID
              expiresAt := issuedAt + TokenExpiration, issuedAt := issuedAt
              notBefore := issuedAt } := by
  simp [ValidateToken, GenerateToken, MacSign]

/-! ## Claims -/

/-- The signature of a freshly issued token is the MAC of its claims. -/
lemma generate_sig (userID roleID issuedAt : Int) (email : String) :
    (GenerateToken userID email roleID issuedAt).sig =
      MacSign JWTSecret (GenerateToken userID email roleID issuedAt).claims :=
  rfl

/-- The 24-hour expiration window, in seconds. -/
lemma tokenExpiration_eq : TokenExpiration = 86400 := by
  norm_num [TokenExpiration]

/-- C1: validating a token produced by issue recovers exactly the user id,
email and role id; validation succeeds exactly when the checking time is at
or after issuance and strictly before the 24-hour expiry boundary; and any
mutation of the payload or of the signature makes validation fail with an
error. -/
theorem token_roundtrip_recovers_claims
    (userID roleID issuedAt checkAt : Int) (email : String) :
    (∀ c, ValidateToken (GenerateToken userID email roleID issuedAt) checkAt
        = .ok c → c.userID = userID ∧ c.email = email ∧ c.roleID = roleID) ∧
    ((∃ c, ValidateToken (GenerateToken userID email roleID issuedAt) checkAt
        = .ok c) ↔
      issuedAt ≤ checkAt ∧ checkAt < issuedAt + TokenExpiration) ∧
    (∀ tok' : SignedToken,
      tok'.sig = (GenerateToken userID email roleID issuedAt).sig →
      tok'.claims ≠ (GenerateToken userID email roleID issuedAt).claims →
      ∃ e, ValidateToken tok' checkAt = .error e) ∧
    (∀ tok' : SignedToken,
      tok'.claims = (GenerateToken userID email roleID issuedAt).claims →
      tok'.sig ≠ (GenerateToken userID email roleID issuedAt).sig →
      ∃ e, ValidateToken tok' checkAt = .error e) := by
  refine ⟨?_, ?_, ?_, ?_⟩
  · intro c hc
    rw [validate_generate_eq] at hc
    split at hc
    · exact absurd hc (by simp)
    · split at hc
      · exact absurd hc (by simp)
      · cases hc
        exact ⟨rfl, rfl, rfl⟩
  · rw [validate_generate_eq, tokenExpiration_eq]
    split_ifs with h1 h2
    · simp only [reduceCtorEq, exists_false, false_iff, not_and, not_lt]
      omega
    · simp only [reduceCtorEq, exists_false, false_iff, not_and, not_lt]
      omega
    · simp only [Except.ok.injEq, exists_eq', true_iff]
      omega
  · intro tok' hsig hclaims
    refine ⟨"error parsing token: signature is invalid", ?_⟩
    unfold ValidateToken
    rw [if_pos]
    intro h
    have h2 : MacSign JWTSecret
        (GenerateToken userID email roleID issuedAt).claims =
        MacSign JWTSecret tok'.claims := by
      rw [← generate_sig, ← hsig, h]
    exact hclaims (congrArg Prod.snd h2).symm
  · intro tok' hclaims hsig
    refine ⟨"error parsing token: signature is invalid", ?_⟩
    unfold ValidateToken
    rw [if_pos]
    intro h
    refine hsig (h.trans ?_)
    rw [hclaims, ← generate_sig]

/-- Witness for C1 at a concrete token and check time inside the window. -/
theorem token_roundtrip_recovers_claims_witness :
    ∃ c, ValidateToken (GenerateToken 7 "a@b.c" 2 1000) 5000 = .ok c :=
  ((token_roundtrip_recovers_claims 7 2 1000 5000 "a@b.c").2.1).mpr
    ⟨by decide, by decide⟩

/-- C2: Login succeeds exactly when a stored user with the email exists
and the password verifies against the stored hash; both failure kinds
return the identical message; success returns a token issued from the
user's id, email and role id, bundled with the public projection. -/
theorem login_succeeds_iff_credentials_match
    (s : Store) (email pw : String) (now : Int) :
    (∀ u, Repo.GetByEmail email s = some u →
      (CheckPassword u.password pw = true →
        Usecase.Login { email := email, password := pw } s now =
          .ok { token := GenerateToken u.id u.email u.roleId now
                user := toUserResponse u }) ∧
      (CheckPassword u.password pw = false →
        Usecase.Login { email := email, password := pw } s now =
          .error "invalid email or password")) ∧
    (Repo.GetByEmail email s = none →
      Usecase.Login { email := email, password := pw } s now =
        .error "invalid email or password") ∧
    ((∃ r, Usecase.Login { email := email, password := pw } s now = .ok r) ↔
      ∃ u, Repo.GetByEmail email s = some u ∧
        CheckPassword u.password pw = true) := by
  refine ⟨?_, ?_, ?_⟩
  · intro u hu
    constructor
    · intro hpw
      simp [Usecase.Login, hu, hpw]
    · intro hpw
      simp [Usecase.Login, hu, hpw]
  · intro hnone
    simp [Usecase.Login, hnone]
  · constructor
    · intro ⟨r, hr⟩
      unfold Usecase.Login at hr
      cases hu : Repo.GetByEmail email s with
      | none => rw [hu] at hr; exact absurd hr (by simp)
      | some u =>
        rw [hu] at hr
        refine ⟨u, rfl, ?_⟩
        by_contra hpw
        rw [Bool.not_eq_true] at hpw
        simp [hpw] at hr
    · intro ⟨u, hu, hpw⟩
      exact ⟨{ token := GenerateToken u.id u.email u.roleId now
               user := toUserResponse u }, by simp [Usecase.Login, hu, hpw]⟩

/-- Witness for C2: logging in with the demo user's email and correct
password succeeds. -/
theorem login_succeeds_iff_credentials_match_witness :
    ∃ r, Usecase.Login { email := "alice@example.com", password := "secret1" }
      demoStore 500 = .ok r :=
  ((login_succeeds_iff_credentials_match demoStore "alice@example.com"
      "secret1" 500).2.2).mpr ⟨demoUser, by decide, by decide⟩

/-- C3: Register on a fresh email creates exactly one row whose stored
password is the hash, which differs from the plaintext yet verifies against
it, with the default role id 1, and returns the passwordless projection;
Register on a taken email fails with the conflict message and returns no
new store. -/
theorem register_unique_email_and_hash
    (s : Store) (p : UserCreatePayload) (now : Int) :
    (∀ u, Repo.GetByEmail p.email s = some u →
      Usecase.Register p s now = .error "email is already registered") ∧
    (Repo.GetByEmail p.email s = none →
      ∃ created : User,
        Usecase.Register p s now =
          .ok ({ id := created.id, name := created.name
                 email := created.email, roleId := 0
                 createdAt := created.createdAt
                 updatedAt := created.updatedAt },
               { rows := s.rows ++ [created], nextId := s.nextId + 1 }) ∧
        created.name = p.name ∧ created.email = p.email ∧
        created.password = HashPassword p.password ∧
        created.password ≠ p.password ∧
        CheckPassword created.password p.password = true ∧
        created.roleId = 1 ∧ created.createdAt = now ∧
        created.updatedAt = now) := by
  constructor
  · intro u hu
    simp [Usecase.Register, hu]
  · intro hnone
    refine ⟨{ id := s.nextId, name := p.name, email := p.email
              password := HashPassword p.password, roleId := 1
              createdAt := now, updatedAt := now }, ?_, rfl, rfl, rfl, ?_,
            ?_, rfl, rfl, rfl⟩
    · simp [Usecase.Register, hnone, Repo.Create]
    · intro h
      have hlen := congrArg String.length h
      rw [HashPassword, String.length_append,
        show ("$2a$10$" : String).length = 7 from rfl] at hlen
      omega
    · simp [CheckPassword]

/-- Witness for C3: registering a fresh email against the demo store. -/
theorem register_unique_email_and_hash_witness :
    ∃ created : User,
      Usecase.Register
        { name := "bob", email := "bob@example.com", password := "hunter22" }
        demoStore 200 =
        .ok ({ id := created.id, name := created.name, email := created.email
               roleId := 0, createdAt := created.createdAt
               updatedAt := created.updatedAt },
             { rows := demoStore.rows ++ [created]
               nextId := demoStore.nextId + 1 }) ∧
      created.name = "bob" ∧ created.email = "bob@example.com" ∧
      created.password = HashPassword "hunter22" ∧
      created.password ≠ "hunter22" ∧
      CheckPassword created.password "hunter22" = true ∧
      created.roleId = 1 ∧ created.createdAt = 200 ∧ created.updatedAt = 200 :=
  (register_unique_email_and_hash demoStore
    { name := "bob", email := "bob@example.com", password := "hunter22" }
    200).2 (by decide)

instance {ε α : Type} [DecidableEq ε] [DecidableEq α] :
    DecidableEq (Except ε α) := fun a b =>
  match a, b with
  | .error e1, .error e2 =>
    if h : e1 = e2 then isTrue (by rw [h])
    else isFalse (by intro hh; cases hh; exact h rfl)
  | .error _, .ok _ => isFalse (by intro hh; cases hh)
  | .ok _, .error _ => isFalse (by intro hh; cases hh)
  | .ok a1, .ok a2 =>
    if h : a1 = a2 then isTrue (by rw [h])
    else isFalse (by intro hh; cases hh; exact h rfl)

/-- Wrapping 64-bit arithmetic is the identity inside the int64 range. -/
lemma wrap64_eq_self {x : Int} (h0 : -(2 ^ 63) ≤ x) (h1 : x < 2 ^ 63) :
    wrap64 x = x := by
  unfold wrap64
  rw [Int.emod_eq_of_lt (by omega) (by omega)]
  omega

/-- The clamped page is at least 1 and the clamped limit lies in [1,100]. -/
lemma clamp_bounds (page limit : Int) :
    1 ≤ pageClamp page ∧ 1 ≤ limitClamp limit ∧ limitClamp limit ≤ 100 := by
  unfold pageClamp limitClamp
  refine ⟨?_, ?_, ?_⟩ <;> split <;> omega

/-- When the clamped offset does not overflow int64, the repository's
paginated listing returns the window of the sorted matching rows together
with the full match count. -/
lemma repo_pagination_eq (page limit : Int) (search : String) (s : Store)
    (h : (pageClamp page - 1) * limitClamp limit < 2 ^ 63) :
    Repo.GetAllPagination page limit search s =
      .ok (((List.insertionSort newerFirst
          (s.rows.filter (matchesSearch search))).drop
          ((pageClamp page - 1) * limitClamp limit).toNat).take
          (limitClamp limit).toNat,
        ((s.rows.filter (matchesSearch search)).length : Int)) := by
  obtain ⟨hp, hl, -⟩ := clamp_bounds page limit
  have hprod : 0 ≤ (pageClamp page - 1) * limitClamp limit :=
    mul_nonneg (by omega) (by omega)
  simp only [Repo.GetAllPagination]
  rw [wrap64_eq_self (by omega) h, if_neg (by omega)]

/-- C4 (amended): whenever the clamped offset `(page-1)*limit` fits in the
int64 range, the repository's paginated listing clamps page to at least 1
and limit into [1,100] (default 10 when out of range), returns the
`(page-1)*limit`-offset window of at most `limit` matching rows ordered by
creation time descending where every returned row matches the search, and
returns the count of all matching rows as total. -/
theorem pagination_repo_contract (page limit : Int) (search : String)
    (s : Store)
    (h : (pageClamp page - 1) * limitClamp limit < 2 ^ 63) :
    ∃ out : List User,
      Repo.GetAllPagination page limit search s =
        .ok (out, ((s.rows.filter (matchesSearch search)).length : Int)) ∧
      out = ((List.insertionSort newerFirst
          (s.rows.filter (matchesSearch search))).drop
          ((pageClamp page - 1) * limitClamp limit).toNat).take
          (limitClamp limit).toNat ∧
      List.Sorted newerFirst out ∧
      (∀ u ∈ out, matchesSearch search u = true) ∧
      out.length ≤ (limitClamp limit).toNat ∧
      1 ≤ pageClamp page ∧ 1 ≤ limitClamp limit ∧ limitClamp limit ≤ 100 ∧
      (page < 1 → pageClamp page = 1) ∧
      (1 ≤ page → pageClamp page = page) ∧
      (limit < 1 ∨ 100 < limit → limitClamp limit = 10) ∧
      (1 ≤ limit → limit ≤ 100 → limitClamp limit = limit) := by
  obtain ⟨hp, hl1, hl2⟩ := clamp_bounds page limit
  have hsub : ((List.insertionSort newerFirst
      (s.rows.filter (matchesSearch search))).drop
      ((pageClamp page - 1) * limitClamp limit).toNat).take
      (limitClamp limit).toNat |>.Sublist
        (List.insertionSort newerFirst
          (s.rows.filter (matchesSearch search))) :=
    (List.take_sublist _ _).trans (List.drop_sublist _ _)
  refine ⟨_, repo_pagination_eq page limit search s h, rfl, ?_, ?_, ?_,
    hp, hl1, hl2, ?_, ?_, ?_, ?_⟩
  · exact List.Pairwise.sublist hsub
      (List.sorted_insertionSort newerFirst _)
  · intro u hu
    have hmem : u ∈ List.insertionSort newerFirst
        (s.rows.filter (matchesSearch search)) :=
      List.Sublist.mem hu hsub
    have hmem2 : u ∈ s.rows.filter (matchesSearch search) :=
      ((List.perm_insertionSort newerFirst _).mem_iff).mp hmem
    exact (List.mem_filter.mp hmem2).2
  · exact List.length_take_le _ _
  · intro hlt
    unfold pageClamp
    rw [if_pos hlt]
  · intro hge
    unfold pageClamp
    rw [if_neg (by omega)]
  · intro hcase
    unfold limitClamp
    rw [if_pos (by omega)]
  · intro h1 h2
    unfold limitClamp
    rw [if_neg (by omega)]

/-- A second sample user, older than the demo user. -/
def demoUser2 : User :=
  { id := 3, name := "carol", email := "carol@example.com"
    password := HashPassword "secret3", roleId := 1, createdAt := 50
    updatedAt := 60 }

/-- A two-row sample store. -/
def demoStore2 : Store := { rows := [demoUser2, demoUser], nextId := 4 }

/-- Witness for C4: page 2 with limit 1 over the two-row store returns the
second-newest row. -/
theorem pagination_repo_contract_witness :
    (pageClamp 2 - 1) * limitClamp 1 < 2 ^ 63 ∧
    ∃ out : List User,
      Repo.GetAllPagination 2 1 "" demoStore2 =
        .ok (out, ((demoStore2.rows.filter (matchesSearch "")).length : Int)) ∧
      out = ((List.insertionSort newerFirst
          (demoStore2.rows.filter (matchesSearch ""))).drop
          ((pageClamp 2 - 1) * limitClamp 1).toNat).take
          (limitClamp 1).toNat ∧
      List.Sorted newerFirst out ∧
      (∀ u ∈ out, matchesSearch "" u = true) ∧
      out.length ≤ (limitClamp 1).toNat ∧
      1 ≤ pageClamp 2 ∧ 1 ≤ limitClamp 1 ∧ limitClamp 1 ≤ 100 ∧
      ((2 : Int) < 1 → pageClamp 2 = 1) ∧
      ((1 : Int) ≤ 2 → pageClamp 2 = 2) ∧
      ((1 : Int) < 1 ∨ (100 : Int) < 1 → limitClamp 1 = 10) ∧
      ((1 : Int) ≤ 1 → (1 : Int) ≤ 100 → limitClamp 1 = 1) :=
  ⟨by decide, pagination_repo_contract 2 1 "" demoStore2 (by decide)⟩

/-- C4 counterexample: at page `2^62 + 1` with limit 100 the Go int64
offset `(page-1)*limit` wraps to 0, so the listing returns the first row
of a one-row store even though the claim prescribes skipping
`(page-1)*limit` rows, which would leave the window empty. -/
theorem pagination_offset_wrap_counterexample :
    Repo.GetAllPagination (2 ^ 62 + 1) 100 "" demoStore =
      .ok ([demoUser], 1) ∧
    ((List.insertionSort newerFirst
        (demoStore.rows.filter (matchesSearch ""))).drop
        ((pageClamp (2 ^ 62 + 1) - 1) * limitClamp 100).toNat).take
        (limitClamp 100).toNat = [] ∧
    ([demoUser] : List User) ≠ [] := by
  refine ⟨by decide, ?_, by simp⟩
  rw [List.drop_eq_nil_of_le, List.take_nil]
  have hlen : (List.insertionSort newerFirst
      (demoStore.rows.filter (matchesSearch ""))).length = 1 := by decide
  rw [hlen]
  decide

/-- Ceiling-division bounds for the Go expression `(t + l - 1) / l` with a
nonnegative total and a positive limit: the quotient is the least integer
whose product with the limit reaches the total. -/
lemma ceil_div_bounds (t l : Int) (ht : 0 ≤ t) (hl : 1 ≤ l) :
    0 ≤ Int.tdiv (t + l - 1) l ∧ Int.tdiv (t + l - 1) l ≤ t ∧
    t ≤ Int.tdiv (t + l - 1) l * l ∧
    Int.tdiv (t + l - 1) l * l < t + l := by
  have hd : 0 ≤ t + l - 1 := by omega
  rw [Int.tdiv_eq_ediv hd (by omega)]
  have hmod0 : 0 ≤ (t + l - 1) % l := Int.emod_nonneg _ (by omega)
  have hmodl : (t + l - 1) % l < l := Int.emod_lt_of_pos _ (by omega)
  have heq : l * ((t + l - 1) / l) + (t + l - 1) % l = t + l - 1 :=
    Int.ediv_add_emod _ _
  have hq0 : 0 ≤ (t + l - 1) / l := Int.ediv_nonneg hd (by omega)
  have hcomm : (t + l - 1) / l * l = l * ((t + l - 1) / l) := mul_comm _ _
  refine ⟨hq0, ?_, by omega, by omega⟩
  by_contra hqt
  push_neg at hqt
  have h1 : l * (t + 1) ≤ l * ((t + l - 1) / l) :=
    mul_le_mul_of_nonneg_left (by omega) (by omega)
  nlinarith

/-- C5 (amended): the pagination metadata echoes the caller-supplied
(unclamped) page and limit, and totalPages is the ceiling of total divided
by the caller-supplied limit, provided that limit is at least 1 and the
involved int64 computations stay in range; the clamped effective values
are not reflected in the metadata. -/
theorem pagination_meta_unclamped (page limit : Int) (search : String)
    (s : Store)
    (hl1 : 1 ≤ limit) (hl2 : limit < 2 ^ 62)
    (hs : (s.rows.length : Int) < 2 ^ 62)
    (hov : (pageClamp page - 1) * limitClamp limit < 2 ^ 63) :
    ∃ resp, Usecase.GetAllPagination page limit search s = .ok resp ∧
      resp.pagination.page = page ∧
      resp.pagination.limit = limit ∧
      resp.pagination.total =
        ((s.rows.filter (matchesSearch search)).length : Int) ∧
      resp.pagination.total ≤
        resp.pagination.totalPages * resp.pagination.limit ∧
      resp.pagination.totalPages * resp.pagination.limit <
        resp.pagination.total + resp.pagination.limit := by
  set T : Int := ((s.rows.filter (matchesSearch search)).length : Int)
    with hT
  have hT0 : 0 ≤ T := Int.natCast_nonneg _
  have hTlt : T < 2 ^ 62 := by
    have hle : T ≤ (s.rows.length : Int) := by
      rw [hT]
      exact_mod_cast List.length_filter_le _ _
    omega
  obtain ⟨hq0, hqT, hlow, hhigh⟩ := ceil_div_bounds T limit hT0 hl1
  have h0 : (limit == 0) = false := by
    rw [beq_eq_false_iff_ne]
    omega
  refine ⟨⟨(((List.insertionSort newerFirst
      (s.rows.filter (matchesSearch search))).drop
      ((pageClamp page - 1) * limitClamp limit).toNat).take
      (limitClamp limit).toNat).map toUserResponse,
      ⟨page, limit, T, Int.tdiv (T + limit - 1) limit⟩⟩,
    ?_, rfl, rfl, rfl, hlow, hhigh⟩
  simp only [Usecase.GetAllPagination,
    repo_pagination_eq page limit search s hov, h0, Bool.false_eq_true,
    if_false]
  have hw1 : wrap64 (T + limit - 1) = T + limit - 1 :=
    wrap64_eq_self (by omega) (by omega)
  rw [hw1]
  have hw2 : wrap64 (Int.tdiv (T + limit - 1) limit) =
      Int.tdiv (T + limit - 1) limit :=
    wrap64_eq_self (by omega) (by omega)
  rw [hw2]

/-- Witness for C5 at page 1, limit 5 over the one-row store. -/
theorem pagination_meta_unclamped_witness :
    (1 : Int) ≤ 5 ∧ (5 : Int) < 2 ^ 62 ∧
    ((demoStore.rows.length : Int) < 2 ^ 62) ∧
    (pageClamp 1 - 1) * limitClamp 5 < 2 ^ 63 ∧
    ∃ resp, Usecase.GetAllPagination 1 5 "" demoStore = .ok resp ∧
      resp.pagination.page = 1 ∧
      resp.pagination.limit = 5 ∧
      resp.pagination.total =
        ((demoStore.rows.filter (matchesSearch "")).length : Int) ∧
      resp.pagination.total ≤
        resp.pagination.totalPages * resp.pagination.limit ∧
      resp.pagination.totalPages * resp.pagination.limit <
        resp.pagination.total + resp.pagination.limit :=
  ⟨by decide, by decide, by decide, by decide,
    pagination_meta_unclamped 1 5 "" demoStore (by decide) (by decide)
      (by decide) (by decide)⟩

/-- C5 counterexample: calling the usecase with page 0 returns metadata
whose page field is 0, while the effective clamped page used for the query
is 1, so the metadata does not carry the clamped values. -/
theorem pagination_meta_counterexample :
    Usecase.GetAllPagination 0 5 "" demoStore =
      .ok { data := [toUserResponse demoUser]
            pagination :=
              { page := 0, limit := 5, total := 1, totalPages := 1 } } ∧
    pageClamp 0 = 1 ∧ ((0 : Int) ≠ 1) := by
  exact ⟨by decide, by decide, by decide⟩

/-- C6: a PUT or DELETE whose authenticated caller id differs from the
path-specified target id fails with 403 and leaves the store untouched,
regardless of which (valid) identity the token carried; the store is
mutated only when the two ids are equal. -/
theorem self_scope_enforced (ctxUserId idParam : Option Int)
    (bind : Option String) (s : Store) (now : Int) :
    (∀ uid id, ctxUserId = some uid → idParam = some id → uid ≠ id →
      Handler.Update ctxUserId idParam bind s now =
        ⟨403, ErrorResponse "you can only update your own profile" now, s⟩ ∧
      Handler.Delete ctxUserId idParam s now =
        ⟨403, ErrorResponse "you can only delete your own account" now, s⟩) ∧
    ((Handler.Update ctxUserId idParam bind s now).store ≠ s →
      ∃ uid, ctxUserId = some uid ∧ idParam = some uid) ∧
    ((Handler.Delete ctxUserId idParam s now).store ≠ s →
      ∃ uid, ctxUserId = some uid ∧ idParam = some uid) := by
  refine ⟨?_, ?_, ?_⟩
  · intro uid id huid hid hne
    subst huid
    subst hid
    constructor
    · simp only [Handler.Update]
      rw [if_pos hne]
    · simp only [Handler.Delete]
      rw [if_pos hne]
  · intro hchanged
    cases ctxUserId with
    | none => simp [Handler.Update] at hchanged
    | some uid =>
      cases idParam with
      | none => simp [Handler.Update] at hchanged
      | some id =>
        refine ⟨uid, rfl, ?_⟩
        by_cases hne : uid = id
        · rw [hne]
        · simp only [Handler.Update] at hchanged
          rw [if_pos hne] at hchanged
          exact absurd rfl hchanged
  · intro hchanged
    cases ctxUserId with
    | none => simp [Handler.Delete] at hchanged
    | some uid =>
      cases idParam with
      | none => simp [Handler.Delete] at hchanged
      | some id =>
        refine ⟨uid, rfl, ?_⟩
        by_cases hne : uid = id
        · rw [hne]
        · simp only [Handler.Delete] at hchanged
          rw [if_pos hne] at hchanged
          exact absurd rfl hchanged

/-- Witness for C6: caller id 5 attempting PUT and DELETE on id 7. -/
theorem self_scope_enforced_witness :
    Handler.Update (some 5) (some 7) (some "newname") demoStore 99 =
      ⟨403, ErrorResponse "you can only update your own profile" 99,
        demoStore⟩ ∧
    Handler.Delete (some 5) (some 7) demoStore 99 =
      ⟨403, ErrorResponse "you can only delete your own account" 99,
        demoStore⟩ :=
  (self_scope_enforced (some 5) (some 7) (some "newname") demoStore 99).1
    5 7 rfl rfl (by decide)

/-- C7: the admin gate rejects with 401 when the identity context is
absent; with a populated context (which implies the bearer middleware saw a
non-empty Authorization header) it rejects with 403 and the permission
message unless the role id is exactly the numeric admin id 2, in which
case the request passes through. -/
theorem admin_gate_role_check (authValues : List String)
    (ctxUserId ctxRoleId : Option Int) :
    ((ctxUserId = none ∨ ctxRoleId = none) →
      ∃ m, AdminRoleMiddleware authValues ctxUserId ctxRoleId =
        .reject 401 m) ∧
    (∀ uid rid, authValues.headD "" ≠ "" → ctxUserId = some uid →
      ctxRoleId = some rid → rid ≠ 2 →
      AdminRoleMiddleware authValues ctxUserId ctxRoleId = .reject 403
        "you don\x27t have permission to access this resource") ∧
    (∀ uid, authValues.headD "" ≠ "" → ctxUserId = some uid →
      ctxRoleId = some 2 →
      AdminRoleMiddleware authValues ctxUserId ctxRoleId = .pass) := by
  refine ⟨?_, ?_, ?_⟩
  · intro hnone
    unfold AdminRoleMiddleware
    by_cases hh : (authValues.headD "" == "") = true
    · exact ⟨"missing authorization header", by rw [if_pos hh]⟩
    · rw [Bool.not_eq_true, beq_eq_false_iff_ne] at hh
      refine ⟨"unauthorized", ?_⟩
      rw [if_neg (by simpa using hh), if_neg ?hlen]
      case hlen =>
        cases authValues with
        | nil => exact absurd rfl hh
        | cons a l => simp
      rcases hnone with h | h
      · rw [h]
      · rw [h]
        cases ctxUserId <;> rfl
  · intro uid rid hh huid hrid hne
    unfold AdminRoleMiddleware
    rw [if_neg (by simpa using hh), if_neg ?hlen2, huid, hrid]
    case hlen2 =>
      cases authValues with
      | nil => exact absurd rfl hh
      | cons a l => simp
    simp only [if_pos hne]
  · intro uid hh huid hrid
    unfold AdminRoleMiddleware
    rw [if_neg (by simpa using hh), if_neg ?hlen3, huid, hrid]
    case hlen3 =>
      cases authValues with
      | nil => exact absurd rfl hh
      | cons a l => simp
    simp

/-- Witness for C7: role id 1 is rejected with 403 on an admin route. -/
theorem admin_gate_role_check_witness :
    AdminRoleMiddleware ["Bearer tok"] (some 5) (some 1) = .reject 403
      "you don\x27t have permission to access this resource" :=
  (admin_gate_role_check ["Bearer tok"] (some 5) (some 1)).2.1 5 1
    (by decide) rfl rfl (by decide)

/-- C8: updating an existing user changes only the name field and
refreshes the update timestamp, preserving id, email, password hash, role
and creation timestamp of every row; rows with other ids are untouched;
updating a missing id fails with the not-found error and yields no store. -/
theorem update_changes_only_name (id : Int) (newName : String) (s : Store)
    (now : Int) :
    (Repo.GetByID id s = none →
      Usecase.Update id newName s now = .error "user not found") ∧
    (∀ u, Repo.GetByID id s = some u →
      u.id = id ∧
      ∃ s2, Usecase.Update id newName s now =
        .ok ({ id := u.id, name := newName, email := u.email
               roleId := u.roleId, createdAt := u.createdAt
               updatedAt := now }, s2) ∧
        s2.nextId = s.nextId ∧
        s2.rows = s.rows.map (fun r =>
          if r.id == id then
            { r with name := newName, roleId := u.roleId, updatedAt := now }
          else r) ∧
        (∀ r ∈ s.rows, r.id ≠ id → r ∈ s2.rows) ∧
        (∀ r ∈ s.rows, ∃ r2 ∈ s2.rows, r2.id = r.id ∧ r2.email = r.email ∧
          r2.password = r.password ∧ r2.createdAt = r.createdAt)) := by
  constructor
  · intro hnone
    simp [Usecase.Update, hnone]
  · intro u hu
    have huid : u.id = id := by
      have hp := List.find?_some (p := fun (r : User) => r.id == id) (by
        simpa [Repo.GetByID] using hu)
      exact beq_iff_eq.mp hp
    have hfind : s.rows.find? (fun r => r.id == u.id) = some u := by
      rw [huid]
      exact hu
    refine ⟨huid, ?_⟩
    refine ⟨(⟨s.rows.map (fun r =>
        if r.id == id then
          { r with name := newName, roleId := u.roleId, updatedAt := now }
        else r), s.nextId⟩ : Store), ?_, rfl, rfl, ?_, ?_⟩
    · simp only [Usecase.Update, hu, Repo.Update]
      simp [show List.find? (fun r => r.id == id) s.rows = some u from hu,
        toUserResponse, huid]
    · intro r hr hrne
      have hcond : (r.id == id) = false := beq_eq_false_iff_ne.mpr hrne
      exact List.mem_map.mpr ⟨r, hr, by simp [hcond]⟩
    · intro r hr
      by_cases hcase : r.id = id
      · refine ⟨{ r with name := newName, roleId := u.roleId, updatedAt := now }, ?_, rfl, rfl, rfl, rfl⟩
        refine List.mem_map.mpr ⟨r, hr, ?_⟩
        simp [hcase]
      · refine ⟨r, ?_, rfl, rfl, rfl, rfl⟩
        refine List.mem_map.mpr ⟨r, hr, ?_⟩
        simp [beq_eq_false_iff_ne.mpr hcase]

/-- Witness for C8: updating the demo user's name. -/
theorem update_changes_only_name_witness :
    demoUser.id = 1 ∧
    ∃ s2, Usecase.Update 1 "alice2" demoStore 999 =
      .ok ({ id := demoUser.id, name := "alice2", email := demoUser.email
             roleId := demoUser.roleId, createdAt := demoUser.createdAt
             updatedAt := 999 }, s2) ∧
      s2.nextId = demoStore.nextId ∧
      s2.rows = demoStore.rows.map (fun r =>
        if r.id == 1 then
          { r with name := "alice2", roleId := demoUser.roleId, updatedAt := 999 }
        else r) ∧
      (∀ r ∈ demoStore.rows, r.id ≠ 1 → r ∈ s2.rows) ∧
      (∀ r ∈ demoStore.rows, ∃ r2 ∈ s2.rows, r2.id = r.id ∧
        r2.email = r.email ∧ r2.password = r.password ∧
        r2.createdAt = r.createdAt) :=
  (update_changes_only_name 1 "alice2" demoStore 999).2 demoUser (by decide)

/-- Any error of the repository's paginated listing is the rejected
negative OFFSET. -/
lemma repo_pagination_error_shape {page limit : Int} {search : String}
    {s : Store} {e : String}
    (h : Repo.GetAllPagination page limit search s = .error e) :
    e = "OFFSET must not be negative" := by
  simp only [Repo.GetAllPagination] at h
  split at h
  · cases h
    rfl
  · cases h

/-- C9: the usecase-level totalPages computation divides by the
caller-supplied limit without clamping, so a zero limit reaches the Go
division by zero (whenever the query itself succeeds); a limit of at least
1 can never produce the division error; and the precondition is
established by the HTTP handler, whose effective limit always lies in
[1,100], equal to the parsed query value exactly when that value lies in
(0,100] and 10 otherwise. -/
theorem pagination_zero_limit_divides_by_zero :
    (∀ (page : Int) (search : String) (s : Store),
      (pageClamp page - 1) * 10 < 2 ^ 63 →
      Usecase.GetAllPagination page 0 search s =
        .error "integer divide by zero") ∧
    (∀ (page limit : Int) (search : String) (s : Store) (e : String),
      1 ≤ limit →
      Usecase.GetAllPagination page limit search s = .error e →
      e ≠ "integer divide by zero") ∧
    (∀ limitParam, 1 ≤ Handler.effectiveLimit limitParam ∧
      Handler.effectiveLimit limitParam ≤ 100) ∧
    (∀ v : Int, 0 < v → v ≤ 100 → Handler.effectiveLimit (some v) = v) ∧
    (∀ v : Int, v ≤ 0 ∨ 100 < v → Handler.effectiveLimit (some v) = 10) ∧
    Handler.effectiveLimit none = 10 := by
  refine ⟨?_, ?_, ?_, ?_, ?_, rfl⟩
  · intro page search s hov
    have hcl : limitClamp 0 = 10 := rfl
    simp only [Usecase.GetAllPagination,
      repo_pagination_eq page 0 search s (by rw [hcl]; exact hov)]
    rfl
  · intro page limit search s e hl hE
    cases hrepo : Repo.GetAllPagination page limit search s with
    | error e2 =>
      simp only [Usecase.GetAllPagination, hrepo] at hE
      cases hE
      rw [repo_pagination_error_shape hrepo]
      decide
    | ok pr =>
      obtain ⟨users, total⟩ := pr
      have h0 : (limit == 0) = false := by
        rw [beq_eq_false_iff_ne]
        omega
      simp only [Usecase.GetAllPagination, hrepo, h0, Bool.false_eq_true,
        if_false] at hE
      cases hE
  · intro limitParam
    cases limitParam with
    | none => simp [Handler.effectiveLimit]
    | some v =>
      simp only [Handler.effectiveLimit]
      split <;> omega
  · intro v h1 h2
    simp only [Handler.effectiveLimit]
    rw [if_pos ⟨h1, h2⟩]
  · intro v hcase
    simp only [Handler.effectiveLimit]
    rw [if_neg (by omega)]

/-- Witness for C9: calling the usecase with limit 0 on the demo store
reaches the division by zero. -/
theorem pagination_zero_limit_divides_by_zero_witness :
    Usecase.GetAllPagination 1 0 "" demoStore =
      .error "integer divide by zero" :=
  pagination_zero_limit_divides_by_zero.1 1 "" demoStore (by decide)

/-- An envelope is well-coded when it is a success envelope with code 200
or an error envelope with code 400, never anything else. -/
def envelopeWellCoded (r : APIResponse) : Prop :=
  (r.success = true ∧ r.code = 200) ∨ (r.success = false ∧ r.code = 400)

/-- C10: every envelope produced by any handler carries success together
with code 200, or failure together with code 400, independent of the HTTP
status actually sent; the code field never reflects any other status. -/
theorem envelope_code_matches_success :
    (∀ bind s now, envelopeWellCoded (Handler.Register bind s now).body) ∧
    (∀ bind s now, envelopeWellCoded (Handler.Login bind s now).body) ∧
    (∀ idParam s now, envelopeWellCoded (Handler.GetByID idParam s now).body) ∧
    (∀ s now, envelopeWellCoded (Handler.GetAll s now).body) ∧
    (∀ pageParam limitParam search s now, envelopeWellCoded
      (Handler.GetAllPagination pageParam limitParam search s now).body) ∧
    (∀ ctx idParam bind s now, envelopeWellCoded
      (Handler.Update ctx idParam bind s now).body) ∧
    (∀ ctx idParam s now, envelopeWellCoded
      (Handler.Delete ctx idParam s now).body) ∧
    (∀ ctx s now, envelopeWellCoded (Handler.GetProfile ctx s now).body) := by
  refine ⟨?_, ?_, ?_, ?_, ?_, ?_, ?_, ?_⟩
  · intro bind s now
    cases bind with
    | none => exact Or.inr ⟨rfl, rfl⟩
    | some p =>
      simp only [Handler.Register]
      by_cases hv : (!validCreatePayload p) = true
      · rw [if_pos hv]
        exact Or.inr ⟨rfl, rfl⟩
      · rw [if_neg hv]
        cases h : Usecase.Register p s now with
        | error e => exact Or.inr ⟨rfl, rfl⟩
        | ok pr =>
          obtain ⟨r, s2⟩ := pr
          exact Or.inl ⟨rfl, rfl⟩
  · intro bind s now
    cases bind with
    | none => exact Or.inr ⟨rfl, rfl⟩
    | some p =>
      simp only [Handler.Login]
      by_cases hv : (!validLoginPayload p) = true
      · rw [if_pos hv]
        exact Or.inr ⟨rfl, rfl⟩
      · rw [if_neg hv]
        cases h : Usecase.Login p s now with
        | error e => exact Or.inr ⟨rfl, rfl⟩
        | ok r => exact Or.inl ⟨rfl, rfl⟩
  · intro idParam s now
    cases idParam with
    | none => exact Or.inr ⟨rfl, rfl⟩
    | some id =>
      simp only [Handler.GetByID]
      cases h : Usecase.GetByID id s with
      | error e => exact Or.inr ⟨rfl, rfl⟩
      | ok r => exact Or.inl ⟨rfl, rfl⟩
  · intro s now
    exact Or.inl ⟨rfl, rfl⟩
  · intro pageParam limitParam search s now
    simp only [Handler.GetAllPagination]
    cases h : Usecase.GetAllPagination (Handler.effectivePage pageParam)
        (Handler.effectiveLimit limitParam) search s with
    | error e => exact Or.inr ⟨rfl, rfl⟩
    | ok r => exact Or.inl ⟨rfl, rfl⟩
  · intro ctx idParam bind s now
    cases ctx with
    | none => exact Or.inr ⟨rfl, rfl⟩
    | some uid =>
      cases idParam with
      | none => exact Or.inr ⟨rfl, rfl⟩
      | some id =>
        simp only [Handler.Update]
        by_cases hne : uid ≠ id
        · rw [if_pos hne]
          exact Or.inr ⟨rfl, rfl⟩
        · rw [if_neg hne]
          cases bind with
          | none => exact Or.inr ⟨rfl, rfl⟩
          | some name =>
            simp only []
            by_cases hv : (!decide (3 ≤ name.length)) = true
            · rw [if_pos hv]
              exact Or.inr ⟨rfl, rfl⟩
            · rw [if_neg hv]
              cases h : Usecase.Update id name s now with
              | error e => exact Or.inr ⟨rfl, rfl⟩
              | ok pr =>
                obtain ⟨r, s2⟩ := pr
                exact Or.inl ⟨rfl, rfl⟩
  · intro ctx idParam s now
    cases ctx with
    | none => exact Or.inr ⟨rfl, rfl⟩
    | some uid =>
      cases idParam with
      | none => exact Or.inr ⟨rfl, rfl⟩
      | some id =>
        simp only [Handler.Delete]
        by_cases hne : uid ≠ id
        · rw [if_pos hne]
          exact Or.inr ⟨rfl, rfl⟩
        · rw [if_neg hne]
          cases h : Usecase.Delete id s with
          | error e => exact Or.inr ⟨rfl, rfl⟩
          | ok s2 => exact Or.inl ⟨rfl, rfl⟩
  · intro ctx s now
    cases ctx with
    | none => exact Or.inr ⟨rfl, rfl⟩
    | some uid =>
      simp only [Handler.GetProfile]
      cases h : Usecase.GetByID uid s with
      | error e => exact Or.inr ⟨rfl, rfl⟩
      | ok r => exact Or.inl ⟨rfl, rfl⟩

end EchoBase
